import Mathlib

/-!
Shallow embedding of the resilient-interaction engine of the
Automation-openRMS test suite (page objects `PatientSearchPage`,
`HomePage`, `PatientDetailPage`, `LoginPage`), together with theorems
settling the specification claims about it.

Conventions of the embedding:
* a DOM text read (`textContent`) is an `Option String`; `none` models a
  locator wait that throws or a `null` text node;
* a row of a result table is its list of cell texts (`List String`);
* the live record set observed at extraction attempt `k` is `live k`;
* the sequence of states seen by the polling convergence wait is a
  `List (List String)`; an exhausted list models the elapsed deadline;
* JavaScript string operations (`trim`, `toLowerCase`, `includes`) and the
  concrete regular expressions of the source are translated character by
  character over `List Char`, including the backtracking behaviour of the
  JS regex engine for the patterns that appear in the source.
-/

namespace OpenRMS

/-- Character class `\s` of JS regular expressions (restricted to the code
points that can occur in the texts handled here), also used by
`String.prototype.trim`. -/
def isJsWs (c : Char) : Bool :=
  c = ' ' || c = '\t' || c = '\n' || c = '\r' ||
  c = '\x0b' || c = '\x0c' || c = '\u00A0' || c = '\u2028' || c = '\u2029'

/-- Character class `.` of JS regular expressions: any character except a
line terminator. -/
def isDotChar (c : Char) : Bool :=
  !(c = '\n' || c = '\r' || c = '\u2028' || c = '\u2029')

/-- JS `s.trim()`. -/
def jsTrim (s : String) : String :=
  String.mk (((s.toList.dropWhile isJsWs).reverse.dropWhile isJsWs).reverse)

/-- JS `s.toLowerCase()` (ASCII range, the only one exercised here). -/
def jsToLower (s : String) : String :=
  String.mk (s.toList.map Char.toLower)

/-- Whether `needle` occurs at the start of `hay`. -/
def startsWithChars : List Char → List Char → Bool
  | [], _ => true
  | _ :: _, [] => false
  | c :: cs, d :: ds => c = d && startsWithChars cs ds

/-- Whether `needle` occurs contiguously anywhere inside `hay`. -/
def infixOfChars (needle : List Char) : List Char → Bool
  | [] => needle.isEmpty
  | c :: rest => startsWithChars needle (c :: rest) || infixOfChars needle rest

/-- JS `hay.includes(needle)`. -/
def jsIncludes (hay needle : String) : Bool :=
  infixOfChars needle.toList hay.toList

/-- The predicate applied to one row text both by the `waitForFunction`
poll and by the post-extraction filter of `PatientSearchPage`:
`t.toLowerCase().includes(query.toLowerCase())`. -/
def rowMatchesQuery (query t : String) : Bool :=
  jsIncludes (jsToLower t) (jsToLower query)

/-! ## Snapshot-diff convergence wait (`searchPatient`, HomePage.ts 728-747) -/

inductive ConvergenceResult where
  | Matched (record : String)
  | TimedOut
deriving DecidableEq, Repr

/-- Body of one `waitForFunction` poll inside `searchPatient`: the current
row texts must be non-empty and some current text must be absent from the
pre-action texts and contain the query case-insensitively.  The witnessing
row (the first one, via `find?`) is reported as the matched record. -/
def newMatchingRow (previousTexts : List String) (query : String)
    (currentTexts : List String) : Option String :=
  if currentTexts.length > 0 then
    currentTexts.find? (fun t => !(previousTexts.contains t) && rowMatchesQuery query t)
  else none

/-- The convergence wait: poll the successive live row-text sets until one
contains a new matching row, or the deadline elapses (the list of polls is
exhausted). -/
def awaitConvergence (snapshot : List String) (query : String) :
    List (List String) → ConvergenceResult
  | [] => ConvergenceResult.TimedOut
  | poll :: rest =>
    match newMatchingRow snapshot query poll with
    | some r => ConvergenceResult.Matched r
    | none => awaitConvergence snapshot query rest

/-! ## Record extraction and the bounded retry loop (HomePage.ts 749-794) -/

structure Patient where
  index : Nat
  name : String
  id : String
  gender : String
  age : String
deriving DecidableEq, Repr

/-- One iteration of the row loop of `extractPatients`: a row is kept only
if it has at least two cells and its (trimmed) second-cell name is
non-empty and contains the query case-insensitively. -/
def extractRow (query : String) (i : Nat) (cells : List String) : Option Patient :=
  if cells.length ≥ 2 then
    let name := jsTrim (cells.getD 1 "")
    let id := jsTrim (cells.getD 0 "")
    let gender := if cells.length > 2 then jsTrim (cells.getD 2 "") else ""
    let age := if cells.length > 3 then jsTrim (cells.getD 3 "") else ""
    if name != "" && rowMatchesQuery query name then
      some { index := i, name := name, id := id, gender := gender, age := age }
    else none
  else none

/-- `PatientSearchPage.extractPatients` over the current live rows. -/
def extractPatients (query : String) (rows : List (List String)) : List Patient :=
  rows.enum.filterMap (fun p => extractRow query p.1 p.2)

/-- Loop bound of the extraction retry loop in `searchPatient`
(`for (let attempt = 0; attempt < 5; attempt++)`). -/
def MAX_ATTEMPTS : Nat := 5

/-- Observable steps of one `searchPatient` call, in source order. -/
inductive Event where
  | ClearInput
  | CaptureSnapshot (texts : List String)
  | FillQuery (query : String)
  | PressEnter
  | ConvergencePoll (result : ConvergenceResult)
  | Extract (attempt : Nat)
deriving DecidableEq, Repr

/-- The extraction retry loop of `searchPatient`: starting at attempt
`start` with `fuel` attempts left, extract from the current live rows;
stop at the first non-empty result, otherwise sleep and loop.  Returns the
final `patients` value, the number of the attempt after the last one
performed, and the trace of extraction events. -/
def retryFrom (query : String) (live : Nat → List (List String)) :
    Nat → Nat → List Patient × Nat × List Event
  | start, 0 => ([], start, [])
  | start, fuel + 1 =>
    let ps := extractPatients query (live start)
    if ps.length > 0 then (ps, start + 1, [Event.Extract start])
    else
      let r := retryFrom query live (start + 1) fuel
      (r.1, r.2.1, Event.Extract start :: r.2.2)

structure SearchResult where
  success : Bool
  hasResults : Bool
  resultCount : Nat
  patients : List Patient
  message : String
deriving DecidableEq, Repr

/-- `PatientSearchPage.searchPatient`, instrumented with its event trace.
In source order: clear the input, capture the baseline row texts, fill the
query and press Enter, run the convergence wait (its outcome is only
logged, never branched on), then run the bounded extraction retry loop and
build the result object. -/
def searchPatientRun (query : String) (baselineTexts : List String)
    (polls : List (List String)) (live : Nat → List (List String)) :
    List Event × SearchResult :=
  let conv := awaitConvergence baselineTexts query polls
  let r := retryFrom query live 0 MAX_ATTEMPTS
  let patients := r.1
  let n := patients.length
  ([Event.ClearInput, Event.CaptureSnapshot baselineTexts, Event.FillQuery query,
     Event.PressEnter, Event.ConvergencePoll conv] ++ r.2.2,
   { success := true
     hasResults := decide (n > 0)
     resultCount := n
     patients := patients
     message :=
       if n > 0 then
         "Found " ++ toString n ++ " patients matching \"" ++ query ++ "\""
       else
         "No patients found matching \"" ++ query ++ "\"" })

/-- The value returned by `searchPatient` to its caller. -/
def searchPatient (query : String) (baselineTexts : List String)
    (polls : List (List String)) (live : Nat → List (List String)) : SearchResult :=
  (searchPatientRun query baselineTexts polls live).2

/-! ## Welcome-message decomposition (`HomePage.getWelcomeMessageParts`,
HomePage.ts 145-165): the regex `Logged in as .*?\((.*?)\) at (.*)\.?$`
applied with JS leftmost / lazy / greedy backtracking semantics. -/

structure WelcomeParts where
  userInfo : String
  ward : String
deriving DecidableEq, Repr

/-- Tail `(.*)\.?$` of the welcome regex: greedy `(.*)` first tries to
capture the whole remainder, which succeeds (with `\.?` matching empty)
exactly when no line terminator is left; the capture is the whole
remainder. -/
def matchTailAll (u : List Char) : Option (List Char) :=
  if u.all isDotChar then some u else none

/-- Part `(.*?)\) at (.*)\.?$` of the welcome regex, entered just after the
opening parenthesis: the lazy group grows one character at a time (each
must be a `.`-class character); at each `)` the literal ` at ` and the tail
are tried, backtracking into the lazy group on failure.  Returns the two
capture groups. -/
def matchParenTail : List Char → List Char → Option (List Char × List Char)
  | acc, ')' :: rest2 =>
    if rest2.take 4 = [' ', 'a', 't', ' '] then
      match matchTailAll (rest2.drop 4) with
      | some g2 => some (acc.reverse, g2)
      | none => matchParenTail (')' :: acc) rest2
    else matchParenTail (')' :: acc) rest2
  | acc, c :: rest => if isDotChar c then matchParenTail (c :: acc) rest else none
  | _, [] => none

/-- Part `.*?\((.*?)\) at (.*)\.?$` of the welcome regex: the first lazy
group scans (one `.`-class character at a time) for an opening parenthesis
whose continuation matches, backtracking past parentheses whose
continuation fails. -/
def lazyToParen : List Char → Option (List Char × List Char)
  | '(' :: rest =>
    (match matchParenTail [] rest with
     | some r => some r
     | none => lazyToParen rest)
  | c :: rest => if isDotChar c then lazyToParen rest else none
  | [] => none

def loggedInAsLit : List Char := "Logged in as ".toList

/-- Unanchored search of the welcome regex: try each start position left to
right; at each, the literal `Logged in as ` must match, then the rest of
the pattern. -/
def welcomeScan : List Char → Option (List Char × List Char)
  | [] => none
  | c :: rest =>
    if (c :: rest).take 13 = loggedInAsLit then
      match lazyToParen ((c :: rest).drop 13) with
      | some r => some r
      | none => welcomeScan rest
    else welcomeScan rest

/-- JS `s.replace(/\.$/, '')` as used on the ward capture. -/
def stripTrailingDot (s : String) : String :=
  if s.toList.getLast? = some '.' then String.mk s.toList.dropLast else s

/-- `HomePage.getWelcomeMessageParts`: trims the welcome text, returns
`none` for an absent or empty text or when the regex does not match,
otherwise packages capture group 1 as `userInfo` and capture group 2
(trimmed, trailing dot removed) as `ward`. -/
def getWelcomeMessageParts (raw : Option String) : Option WelcomeParts :=
  match raw with
  | none => none
  | some t =>
    let text := jsTrim t
    if text = "" then none
    else
      match welcomeScan text.toList with
      | some (g1, g2) =>
        some { userInfo := String.mk g1, ward := stripTrailingDot (jsTrim (String.mk g2)) }
      | none => none

/-! ## Age and birthdate extraction (`PatientDetailPage`, lines 223-320) -/

/-- One step of JS `replace(/\s+/g, ' ')`: the flag records whether the
previous character was part of a whitespace run already replaced. -/
def squashWsAux : Bool → List Char → List Char
  | _, [] => []
  | prevWs, c :: rest =>
    if isJsWs c then
      if prevWs then squashWsAux true rest else ' ' :: squashWsAux true rest
    else c :: squashWsAux false rest

/-- JS `s.replace(/\s+/g, ' ')`. -/
def squashWs (s : String) : String := String.mk (squashWsAux false s.toList)

/-- `PatientDetailPage.getPatientAge`: the raw text of the element found by
`text=/\d+ year\(s\)/` (absent on failure), whitespace-normalised and
trimmed; empty string when the element is missing or its text is empty. -/
def getPatientAge (raw : Option String) : String :=
  match raw with
  | none => ""
  | some t => if t = "" then "" else jsTrim (squashWs t)

/-- JS `\w`. -/
def isWordChar (c : Char) : Bool := c.isAlphanum || c = '_'

/-- Part `\.\w{3}\.\d{4}` of the birthdate pattern; returns the matched
characters and the remainder. -/
def dateTail : List Char → Option (List Char × List Char)
  | '.' :: a :: b :: c :: '.' :: d1 :: d2 :: d3 :: d4 :: rest =>
    if isWordChar a && isWordChar b && isWordChar c &&
        d1.isDigit && d2.isDigit && d3.isDigit && d4.isDigit then
      some (['.', a, b, c, '.', d1, d2, d3, d4], rest)
    else none
  | _ => none

/-- The closing `\s*\)` of the birthdate pattern. -/
def closeParen (rest2 : List Char) : Bool := (rest2.dropWhile isJsWs).take 1 = [')']

/-- The one-digit alternative of the greedy `\d{1,2}` in the birthdate
pattern, tried when the two-digit alternative fails. -/
def birthdateTry1 (d1 : Char) (u : List Char) : Option (List Char) :=
  if d1.isDigit then
    match dateTail u with
    | some (mid, rest2) => if closeParen rest2 then some (d1 :: mid) else none
    | none => none
  else none

/-- Part `\s*(\d{1,2}\.\w{3}\.\d{4})\s*\)` of the birthdate pattern,
entered just after the opening parenthesis; `\d{1,2}` is greedy, so two
digits are tried before one. -/
def birthdateAfterParen (cs : List Char) : Option (List Char) :=
  match cs.dropWhile isJsWs with
  | d1 :: d2 :: rest =>
    if d1.isDigit && d2.isDigit then
      match dateTail rest with
      | some (mid, rest2) =>
        if closeParen rest2 then some (d1 :: d2 :: mid) else birthdateTry1 d1 (d2 :: rest)
      | none => birthdateTry1 d1 (d2 :: rest)
    else birthdateTry1 d1 (d2 :: rest)
  | [d1] => birthdateTry1 d1 []
  | [] => none

/-- Unanchored search of `/\(\s*(\d{1,2}\.\w{3}\.\d{4})\s*\)/`: only an
opening parenthesis can start a match; positions are tried left to
right. -/
def findBirthdate : List Char → Option (List Char)
  | [] => none
  | '(' :: rest =>
    (match birthdateAfterParen rest with
     | some g => some g
     | none => findBirthdate rest)
  | _ :: rest => findBirthdate rest

/-- The from-age branch of `PatientDetailPage.getPatientBirthdate`: apply
the parenthesised-date pattern to the (non-empty) age text; on a match,
whitespace-normalise and trim the capture. -/
def birthdateFromAge (ageText : String) : Option String :=
  if ageText = "" then none
  else
    match findBirthdate ageText.toList with
    | some g => some (jsTrim (squashWs (String.mk g)))
    | none => none

/-- Cleaning applied to a fallback-selector birthdate text:
`replace(/[()]/g, '').replace(/\s+/g, ' ').trim()`. -/
def cleanBirthdateProbe (t : String) : String :=
  jsTrim (squashWs (String.mk (t.toList.filter (fun c => !(c = '(' || c = ')')))))

/-- The fallback-selector loop of `getPatientBirthdate`: each probe either
throws / returns null (`none`) or yields a text; the first text that is
non-empty after trimming is cleaned and returned; otherwise the empty
string. -/
def birthdateProbes : List (Option String) → String
  | [] => ""
  | none :: rest => birthdateProbes rest
  | some t :: rest => if jsTrim t = "" then birthdateProbes rest else cleanBirthdateProbe t

/-- `PatientDetailPage.getPatientBirthdate`: first the parenthesised-date
pattern over the age text, then the fallback selector probes, finally the
empty string. -/
def getPatientBirthdate (ageRaw : Option String) (probes : List (Option String)) : String :=
  match birthdateFromAge (getPatientAge ageRaw) with
  | some b => b
  | none => birthdateProbes probes

/-- Part `\s*(.+)` of the patient-id pattern with JS backtracking: `\s*` is
greedy but gives characters back (one at a time, right to left) until the
rest matches; `(.+)` then greedily captures the run of `.`-class
characters. -/
def matchWsDotPlus : List Char → Option (List Char)
  | [] => none
  | c :: rest =>
    if isJsWs c then
      match matchWsDotPlus rest with
      | some g => some g
      | none => if isDotChar c then some (c :: rest.takeWhile isDotChar) else none
    else if isDotChar c then some (c :: rest.takeWhile isDotChar) else none

def patientIdLit : List Char := "Patient ID".toList

/-- Unanchored search of `/Patient ID\s*(.+)/`. -/
def patientIdSearch : List Char → Option (List Char)
  | [] => none
  | c :: rest =>
    if (c :: rest).take 10 = patientIdLit then
      match matchWsDotPlus ((c :: rest).drop 10) with
      | some g => some g
      | none => patientIdSearch rest
    else patientIdSearch rest

/-- `PatientDetailPage.getPatientId`: the captured group of
`/Patient ID\s*(.+)/` over the section text, trimmed; empty string when the
section is unavailable or the pattern does not match. -/
def getPatientId (raw : Option String) : String :=
  match raw with
  | none => ""
  | some t =>
    match patientIdSearch t.toList with
    | some g => jsTrim (String.mk g)
    | none => ""

/-! ## Location-control shape handling (`LoginPage`, lines 62-202).

The environment record carries the outcomes of the Document Interface
primitives one `LoginPage` call can invoke: `probe` is the result of
`locationDropdown.evaluate(el => el.tagName === 'SELECT')` (`none` when the
evaluation itself throws), `dropdownTexts` / `buttonTexts` are the option
or button text enumerations (`none` when the corresponding `waitFor`
throws), `visible` tells which hardcoded labels `page.locator` finds
visible, and `clickOk` / `dropdownSelectOk` tell whether clicking or
selecting a given label succeeds.  The `random` branch of `selectLocation`
first resolves a concrete label and then runs the same code as the exact
branch, preceded by the identical shape probe, so the model takes the
target label as argument. -/

structure LocEnv where
  probe : Option Bool
  dropdownTexts : Option (List String)
  buttonTexts : Option (List String)
  visible : String → Bool
  clickOk : String → Bool
  dropdownSelectOk : String → Bool

/-- The fixed recovery list in `getLocationOptionsFromButtons`. -/
def commonLocations : List String :=
  ["Inpatient Ward", "Outpatient Clinic", "Laboratory", "Pharmacy",
   "Registration Desk", "Isolation Ward"]

/-- `testConfig.testData.VALID_LOCATIONS` from test-fixtures.ts. -/
def VALID_LOCATIONS : List String :=
  ["Inpatient Ward", "Outpatient Clinic", "Laboratory", "Pharmacy",
   "Registration Desk", "Isolation Ward"]

/-- `LoginPage.getLocationOptionsFromDropdown`: `none` models the
`waitFor` throwing (propagated to the caller); otherwise the option texts
with blank entries filtered out. -/
def getLocationOptionsFromDropdown (env : LocEnv) : Option (List String) :=
  match env.dropdownTexts with
  | none => none
  | some opts => some (opts.filter (fun o => jsTrim o != ""))

/-- `LoginPage.getLocationOptionsFromButtons`: on a successful wait, the
button texts with blank entries filtered out (even when that leaves
nothing); when the wait throws, the hardcoded recovery list filtered by
visibility, or the whole list if none is visible. -/
def getLocationOptionsFromButtons (env : LocEnv) : List String :=
  match env.buttonTexts with
  | some bs => bs.filter (fun o => jsTrim o != "")
  | none =>
    let avail := commonLocations.filter env.visible
    if avail.length > 0 then avail else commonLocations

/-- `LoginPage.getLocationOptions`: the whole body is wrapped in
`try/catch`, so a throwing shape probe (and likewise a throwing dropdown
enumeration) falls through to the button-based path. -/
def getLocationOptions (env : LocEnv) : List String :=
  match env.probe with
  | some true =>
    (match getLocationOptionsFromDropdown env with
     | some opts => opts
     | none => getLocationOptionsFromButtons env)
  | some false => getLocationOptionsFromButtons env
  | none => getLocationOptionsFromButtons env

/-- Outcome of `selectLocation`: an uncaught exception, a dropdown
selection, or a button click. -/
inductive SelectOutcome where
  | Exn
  | SelectedDropdown (label : String)
  | ClickedButton (label : String)
deriving DecidableEq, Repr

/-- `LoginPage.selectLocationButton`: waits for and clicks the first
locator strategy that resolves; throws when none does. -/
def selectLocationButton (env : LocEnv) (location : String) : SelectOutcome :=
  if env.clickOk location then SelectOutcome.ClickedButton location else SelectOutcome.Exn

/-- `LoginPage.selectLocation` (exact-label branch): the shape probe is
NOT wrapped in `try/catch` here, so a throwing probe propagates out of the
call instead of falling back to the button path. -/
def selectLocation (env : LocEnv) (location : String) : SelectOutcome :=
  match env.probe with
  | none => SelectOutcome.Exn
  | some true =>
    if env.dropdownSelectOk location then SelectOutcome.SelectedDropdown location
    else SelectOutcome.Exn
  | some false => selectLocationButton env location

/-! ## Lemmas about the extraction retry loop -/

theorem retryFrom_attempts_le (query : String) (live : Nat → List (List String)) :
    ∀ fuel start, (retryFrom query live start fuel).2.1 ≤ start + fuel := by
  intro fuel
  induction fuel with
  | zero => intro start; simp [retryFrom]
  | succ n ih =>
    intro start
    simp only [retryFrom]
    split
    · show start + 1 ≤ start + (n + 1)
      omega
    · have h := ih (start + 1)
      show (retryFrom query live (start + 1) n).2.1 ≤ start + (n + 1)
      omega

theorem retryFrom_all_empty (query : String) (live : Nat → List (List String)) :
    ∀ fuel start, (∀ k, start ≤ k → k < start + fuel → extractPatients query (live k) = []) →
      (retryFrom query live start fuel).1 = [] ∧
      (retryFrom query live start fuel).2.1 = start + fuel := by
  intro fuel
  induction fuel with
  | zero => intro start _; simp [retryFrom]
  | succ n ih =>
    intro start h
    have h0 : extractPatients query (live start) = [] := h start le_rfl (by omega)
    have hrec := ih (start + 1) (fun k hk1 hk2 => h k (by omega) (by omega))
    simp only [retryFrom, h0]
    rw [if_neg (by simp)]
    refine ⟨by simpa using hrec.1, ?_⟩
    show (retryFrom query live (start + 1) n).2.1 = start + (n + 1)
    have h2 := hrec.2
    omega

theorem retryFrom_first_success (query : String) (live : Nat → List (List String)) :
    ∀ k fuel start, k < fuel →
      (∀ j, j < k → extractPatients query (live (start + j)) = []) →
      extractPatients query (live (start + k)) ≠ [] →
      (retryFrom query live start fuel).1 = extractPatients query (live (start + k)) ∧
      (retryFrom query live start fuel).2.1 = start + k + 1 := by
  intro k
  induction k with
  | zero =>
    intro fuel start hk _ hne
    obtain ⟨n, rfl⟩ : ∃ n, fuel = n + 1 := ⟨fuel - 1, by omega⟩
    have hpos : (extractPatients query (live (start + 0))).length > 0 := by
      simpa using List.length_pos.mpr (by simpa using hne)
    simp only [retryFrom]
    rw [if_pos (by simpa using hpos)]
    simp
  | succ m ih =>
    intro fuel start hk hempty hne
    obtain ⟨n, rfl⟩ : ∃ n, fuel = n + 1 := ⟨fuel - 1, by omega⟩
    have h0 : extractPatients query (live start) = [] := by
      simpa using hempty 0 (by omega)
    have hrec := ih n (start + 1) (by omega)
      (fun j hj => by
        have := hempty (j + 1) (by omega)
        simpa [Nat.add_assoc, Nat.add_comm 1 j] using this)
      (by
        have : start + 1 + m = start + (m + 1) := by omega
        rw [this]; exact hne)
    simp only [retryFrom, h0]
    rw [if_neg (by simp)]
    constructor
    · have : start + 1 + m = start + (m + 1) := by omega
      simpa [this] using hrec.1
    · have : start + 1 + m + 1 = start + (m + 1) + 1 := by omega
      simpa [this] using hrec.2

theorem retryFrom_events_extract (query : String) (live : Nat → List (List String)) :
    ∀ fuel start e, e ∈ (retryFrom query live start fuel).2.2 → ∃ k, e = Event.Extract k := by
  intro fuel
  induction fuel with
  | zero => intro start e he; simp [retryFrom] at he
  | succ n ih =>
    intro start e he
    simp only [retryFrom] at he
    by_cases hc : (extractPatients query (live start)).length > 0
    · rw [if_pos hc] at he
      simp at he
      exact ⟨start, he⟩
    · rw [if_neg hc] at he
      simp at he
      rcases he with rfl | he
      · exact ⟨start, rfl⟩
      · exact ih (start + 1) e he

theorem retryFrom_patients_cases (query : String) (live : Nat → List (List String)) :
    ∀ fuel start, (retryFrom query live start fuel).1 = [] ∨
      ∃ k, start ≤ k ∧ k < start + fuel ∧
        (retryFrom query live start fuel).1 = extractPatients query (live k) := by
  intro fuel
  induction fuel with
  | zero => intro start; simp [retryFrom]
  | succ n ih =>
    intro start
    simp only [retryFrom]
    by_cases hc : (extractPatients query (live start)).length > 0
    · rw [if_pos hc]
      exact Or.inr ⟨start, le_rfl, by omega, rfl⟩
    · rw [if_neg hc]
      rcases ih (start + 1) with h | ⟨k, hk1, hk2, hk3⟩
      · exact Or.inl h
      · exact Or.inr ⟨k, by omega, by omega, hk3⟩

/-! ## Lemmas about the convergence wait -/

theorem newMatchingRow_some (previousTexts : List String) (query : String)
    (currentTexts : List String) (r : String)
    (h : newMatchingRow previousTexts query currentTexts = some r) :
    r ∈ currentTexts ∧ r ∉ previousTexts ∧ rowMatchesQuery query r = true := by
  unfold newMatchingRow at h
  split at h
  · have hmem := List.mem_of_find?_eq_some h
    have hp := List.find?_some h
    have hand := Bool.and_eq_true_iff.mp hp
    refine ⟨hmem, ?_, hand.2⟩
    have : previousTexts.contains r = false := by
      cases hc : previousTexts.contains r
      · rfl
      · rw [hc] at hand; simp at hand
    simpa using this
  · exact absurd h (by simp)

theorem newMatchingRow_none (previousTexts : List String) (query : String)
    (currentTexts : List String)
    (h : ∀ t ∈ currentTexts, t ∈ previousTexts ∨ rowMatchesQuery query t = false) :
    newMatchingRow previousTexts query currentTexts = none := by
  unfold newMatchingRow
  split
  · refine List.find?_eq_none.mpr (fun t ht => ?_)
    rcases h t ht with hmem | hq
    · have hc : previousTexts.contains t = true := by simpa using hmem
      simp only [hc, Bool.not_true, Bool.false_and]
      simp
    · simp [hq]
  · rfl

theorem awaitConvergence_matched (snapshot : List String) (query : String)
    (polls : List (List String)) (r : String)
    (h : awaitConvergence snapshot query polls = ConvergenceResult.Matched r) :
    (∃ poll ∈ polls, r ∈ poll) ∧ r ∉ snapshot ∧ rowMatchesQuery query r = true := by
  induction polls with
  | nil => simp [awaitConvergence] at h
  | cons poll rest ih =>
    simp only [awaitConvergence] at h
    cases hn : newMatchingRow snapshot query poll with
    | some r' =>
      rw [hn] at h
      have hr : r' = r := by injection h
      subst hr
      obtain ⟨h1, h2, h3⟩ := newMatchingRow_some _ _ _ _ hn
      exact ⟨⟨poll, by simp, h1⟩, h2, h3⟩
    | none =>
      rw [hn] at h
      obtain ⟨⟨poll', hp1, hp2⟩, h2, h3⟩ := ih h
      exact ⟨⟨poll', by simp [hp1], hp2⟩, h2, h3⟩

theorem awaitConvergence_timeout (snapshot : List String) (query : String)
    (polls : List (List String))
    (h : ∀ poll ∈ polls, ∀ t ∈ poll, t ∈ snapshot ∨ rowMatchesQuery query t = false) :
    awaitConvergence snapshot query polls = ConvergenceResult.TimedOut := by
  induction polls with
  | nil => rfl
  | cons poll rest ih =>
    simp only [awaitConvergence]
    rw [newMatchingRow_none _ _ _ (h poll (by simp))]
    exact ih (fun p hp t ht => h p (by simp [hp]) t ht)

/-- Every event of the retry suffix of the trace is an extraction event, so
the convergence-poll event of a `searchPatient` trace is unique and carries
the value computed by `awaitConvergence` over the pre-action baseline. -/
theorem searchPatientRun_poll_event (query : String) (baselineTexts : List String)
    (polls : List (List String)) (live : Nat → List (List String))
    (r : ConvergenceResult)
    (h : Event.ConvergencePoll r ∈ (searchPatientRun query baselineTexts polls live).1) :
    r = awaitConvergence baselineTexts query polls := by
  simp only [searchPatientRun, List.mem_append, List.mem_cons] at h
  rcases h with h | h
  · rcases h with h | h | h | h | h | h
    rotate_left 4
    · injection h
    all_goals simp at h
  · obtain ⟨k, hk⟩ := retryFrom_events_extract query live MAX_ATTEMPTS 0 _ h
    simp at hk

/-! ## Event classifiers used to state the trace claims -/

def isSnapshotEv : Event → Bool
  | Event.CaptureSnapshot _ => true
  | _ => false

def isFillEv : Event → Bool
  | Event.FillQuery _ => true
  | _ => false

def isPollEv : Event → Bool
  | Event.ConvergencePoll _ => true
  | _ => false

def isActionDispatchEv : Event → Bool
  | Event.PressEnter => true
  | _ => false

/-! ## Claim theorems -/

/-- C1 (confirmed).  Convergence correctness: in every `searchPatient`
execution, the convergence wait reports `Matched r` only if `r` is a live
row text of some poll that is absent from the baseline snapshot and
case-insensitively contains the query; and if no poll ever shows a new
matching row, the wait ends in the timed-out branch. -/
theorem claim_C1_convergence_correctness (query : String) (baselineTexts : List String)
    (polls : List (List String)) (live : Nat → List (List String)) :
    (∀ r, Event.ConvergencePoll (ConvergenceResult.Matched r) ∈
        (searchPatientRun query baselineTexts polls live).1 →
      (∃ poll ∈ polls, r ∈ poll) ∧ r ∉ baselineTexts ∧ rowMatchesQuery query r = true) ∧
    ((∀ poll ∈ polls, ∀ t ∈ poll, t ∈ baselineTexts ∨ rowMatchesQuery query t = false) →
      Event.ConvergencePoll ConvergenceResult.TimedOut ∈
        (searchPatientRun query baselineTexts polls live).1) := by
  constructor
  · intro r hr
    have h := searchPatientRun_poll_event query baselineTexts polls live _ hr
    exact awaitConvergence_matched _ _ _ _ h.symm
  · intro h
    have ht := awaitConvergence_timeout baselineTexts query polls h
    simp [searchPatientRun, ht]

/-- Witness for C1: in the scenario of §8 of the design (baseline
`["Jane Smith, F"]`, a poll adds `"John Doe, M"`, query `"john"`) the wait
matches the new row; with a poll that never changes, it times out. -/
theorem claim_C1_convergence_correctness_witness :
    ((∃ poll ∈ [["Jane Smith, F", "John Doe, M"]], "John Doe, M" ∈ poll) ∧
      "John Doe, M" ∉ ["Jane Smith, F"] ∧ rowMatchesQuery "john" "John Doe, M" = true) ∧
    Event.ConvergencePoll ConvergenceResult.TimedOut ∈
      (searchPatientRun "mary" ["Jane Smith, F"] [["Jane Smith, F"]] (fun k => [])).1 :=
  ⟨(claim_C1_convergence_correctness "john" ["Jane Smith, F"]
      [["Jane Smith, F", "John Doe, M"]] (fun k => [])).1 "John Doe, M" (by decide),
   (claim_C1_convergence_correctness "mary" ["Jane Smith, F"]
      [["Jane Smith, F"]] (fun k => [])).2 (by decide)⟩

/-- C2 counterexample: when every extraction attempt is empty,
`searchPatient` still returns `success = true` — the claim that the
success flag is `false` on exhaustion is refuted. -/
theorem claim_C2_counterexample :
    ¬ (searchPatient "Zzz Unfindable" [] [] (fun k => [])).success = false := by
  decide

/-- C2 (amended).  When all retry attempts are exhausted with an empty
extracted record set, `searchPatient` returns absence as data — empty
patient list, `hasResults = false`, `resultCount = 0` — and raises no
exception; its `success` flag, however, is unconditionally `true`, not
`false`. -/
theorem claim_C2_exhaustion_returns_data (query : String) (baselineTexts : List String)
    (polls : List (List String)) (live : Nat → List (List String))
    (h : ∀ k, k < MAX_ATTEMPTS → extractPatients query (live k) = []) :
    (searchPatient query baselineTexts polls live).success = true ∧
    (searchPatient query baselineTexts polls live).hasResults = false ∧
    (searchPatient query baselineTexts polls live).patients = [] ∧
    (searchPatient query baselineTexts polls live).resultCount = 0 := by
  have hempty := retryFrom_all_empty query live MAX_ATTEMPTS 0
    (fun k hk1 hk2 => h k (by omega))
  simp [searchPatient, searchPatientRun, hempty.1]

/-- Witness for C2 (amended) at a query with no matching rows at all. -/
theorem claim_C2_exhaustion_returns_data_witness :
    (searchPatient "Zzz" [] [] (fun k => [])).success = true ∧
    (searchPatient "Zzz" [] [] (fun k => [])).hasResults = false ∧
    (searchPatient "Zzz" [] [] (fun k => [])).patients = [] ∧
    (searchPatient "Zzz" [] [] (fun k => [])).resultCount = 0 :=
  claim_C2_exhaustion_returns_data "Zzz" [] [] (fun k => []) (fun k hk => rfl)

/-- C3 (confirmed).  Retry monotonicity: one `searchPatient` call
dispatches the triggering action exactly once (so never more than the
attempt bound) and performs at most `MAX_ATTEMPTS` extraction attempts;
on the first attempt `k` whose post-filter record set is non-empty it
stops — the result carries exactly that record set, reports results, and
`k + 1` attempts were used. -/
theorem claim_C3_retry_monotonic (query : String) (baselineTexts : List String)
    (polls : List (List String)) (live : Nat → List (List String)) :
    (retryFrom query live 0 MAX_ATTEMPTS).2.1 ≤ MAX_ATTEMPTS ∧
    (searchPatientRun query baselineTexts polls live).1.countP isActionDispatchEv = 1 ∧
    ∀ k, k < MAX_ATTEMPTS →
      (∀ j, j < k → extractPatients query (live j) = []) →
      extractPatients query (live k) ≠ [] →
      (searchPatient query baselineTexts polls live).patients = extractPatients query (live k) ∧
      (searchPatient query baselineTexts polls live).hasResults = true ∧
      (retryFrom query live 0 MAX_ATTEMPTS).2.1 = k + 1 := by
  refine ⟨by simpa using retryFrom_attempts_le query live MAX_ATTEMPTS 0, ?_, ?_⟩
  · have hz : (retryFrom query live 0 MAX_ATTEMPTS).2.2.countP isActionDispatchEv = 0 := by
      refine List.countP_eq_zero.mpr (fun e he => ?_)
      obtain ⟨k, rfl⟩ := retryFrom_events_extract query live MAX_ATTEMPTS 0 e he
      simp [isActionDispatchEv]
    simp [searchPatientRun, List.countP_append, List.countP_cons, hz, isActionDispatchEv]
  · intro k hk hempty hne
    have hfs := retryFrom_first_success query live k MAX_ATTEMPTS 0 hk
      (fun j hj => by simpa using hempty j hj) (by simpa using hne)
    have h2 : (retryFrom query live 0 MAX_ATTEMPTS).1 = extractPatients query (live k) := by
      simpa using hfs.1
    have hpos : 0 < (extractPatients query (live k)).length := List.length_pos.mpr hne
    refine ⟨?_, ?_, by simpa using hfs.2⟩
    · simp [searchPatient, searchPatientRun, h2]
    · simp [searchPatient, searchPatientRun, h2, hpos]

/-- Witness for C3: the §8 scenario — empty on attempts 0 and 1, one
matching record on attempt 2 — stops after three attempts with that
record set. -/
theorem claim_C3_retry_monotonic_witness :
    (searchPatient "john" [] []
        (fun k => if k < 2 then [] else [["100", "John Doe", "M", "30"]])).patients =
      extractPatients "john"
        ((fun k => if k < 2 then [] else [["100", "John Doe", "M", "30"]]) 2) ∧
    (searchPatient "john" [] []
        (fun k => if k < 2 then [] else [["100", "John Doe", "M", "30"]])).hasResults = true ∧
    (retryFrom "john" (fun k => if k < 2 then [] else [["100", "John Doe", "M", "30"]])
        0 MAX_ATTEMPTS).2.1 = 2 + 1 :=
  (claim_C3_retry_monotonic "john" [] []
      (fun k => if k < 2 then [] else [["100", "John Doe", "M", "30"]])).2.2 2
    (by decide)
    (fun j hj => by interval_cases j <;> rfl)
    (by decide)

/-- C4 (confirmed).  Ordering invariant: in every `searchPatient` trace
the baseline snapshot capture sits at position 1, strictly before the
query fill at position 2 (followed by the Enter press), strictly before
the convergence poll at position 4; each of the three occurs exactly once,
so no reordering is possible. -/
theorem claim_C4_snapshot_before_action_before_poll (query : String)
    (baselineTexts : List String) (polls : List (List String))
    (live : Nat → List (List String)) :
    ((searchPatientRun query baselineTexts polls live).1.findIdx isSnapshotEv = 1 ∧
     (searchPatientRun query baselineTexts polls live).1.findIdx isFillEv = 2 ∧
     (searchPatientRun query baselineTexts polls live).1.findIdx isPollEv = 4) ∧
    ((searchPatientRun query baselineTexts polls live).1.countP isSnapshotEv = 1 ∧
     (searchPatientRun query baselineTexts polls live).1.countP isFillEv = 1 ∧
     (searchPatientRun query baselineTexts polls live).1.countP isPollEv = 1) := by
  have hex : ∀ e ∈ (retryFrom query live 0 MAX_ATTEMPTS).2.2,
      isSnapshotEv e = false ∧ isFillEv e = false ∧ isPollEv e = false := by
    intro e he
    obtain ⟨k, rfl⟩ := retryFrom_events_extract query live MAX_ATTEMPTS 0 e he
    simp [isSnapshotEv, isFillEv, isPollEv]
  have z1 : (retryFrom query live 0 MAX_ATTEMPTS).2.2.countP isSnapshotEv = 0 :=
    List.countP_eq_zero.mpr (fun e he => by simp [(hex e he).1])
  have z2 : (retryFrom query live 0 MAX_ATTEMPTS).2.2.countP isFillEv = 0 :=
    List.countP_eq_zero.mpr (fun e he => by simp [(hex e he).2.1])
  have z3 : (retryFrom query live 0 MAX_ATTEMPTS).2.2.countP isPollEv = 0 :=
    List.countP_eq_zero.mpr (fun e he => by simp [(hex e he).2.2])
  refine ⟨⟨?_, ?_, ?_⟩, ?_, ?_, ?_⟩
  · simp [searchPatientRun, List.findIdx_cons, isSnapshotEv, isFillEv, isPollEv]
  · simp [searchPatientRun, List.findIdx_cons, isSnapshotEv, isFillEv, isPollEv]
  · simp [searchPatientRun, List.findIdx_cons, isSnapshotEv, isFillEv, isPollEv]
  · simp only [searchPatientRun, List.countP_append]
    rw [z1]
    simp [List.countP_cons, isSnapshotEv]
  · simp only [searchPatientRun, List.countP_append]
    rw [z2]
    simp [List.countP_cons, isFillEv]
  · simp only [searchPatientRun, List.countP_append]
    rw [z3]
    simp [List.countP_cons, isPollEv]

/-- C8 counterexample: with a throwing shape probe, `selectLocation` ends
in an uncaught exception even though the ItemList path would have clicked
the target — it does not default to the ItemList handling path. -/
theorem claim_C8_counterexample :
    selectLocation
        { probe := none, dropdownTexts := none, buttonTexts := some ["Pharmacy"],
          visible := fun l => false, clickOk := fun l => true,
          dropdownSelectOk := fun l => true } "Pharmacy" ≠
      selectLocationButton
        { probe := none, dropdownTexts := none, buttonTexts := some ["Pharmacy"],
          visible := fun l => false, clickOk := fun l => true,
          dropdownSelectOk := fun l => true } "Pharmacy" := by
  decide

/-- C8 (amended).  When the shape probe fails, option enumeration
(`getLocationOptions`) does default to the ItemList (button-based) path,
because its whole body is wrapped in `try/catch`; option selection
(`selectLocation`), however, has no such guard, so there a probe failure
propagates as an exception instead of defaulting. -/
theorem claim_C8_probe_failure_paths (env : LocEnv) (target : String)
    (h : env.probe = none) :
    getLocationOptions env = getLocationOptionsFromButtons env ∧
    selectLocation env target = SelectOutcome.Exn := by
  constructor
  · unfold getLocationOptions
    rw [h]
  · unfold selectLocation
    rw [h]

/-- Witness for C8 (amended) at a concrete probe-failure environment. -/
theorem claim_C8_probe_failure_paths_witness :
    getLocationOptions
        { probe := none, dropdownTexts := none, buttonTexts := some ["Pharmacy"],
          visible := fun l => false, clickOk := fun l => true,
          dropdownSelectOk := fun l => true } =
      getLocationOptionsFromButtons
        { probe := none, dropdownTexts := none, buttonTexts := some ["Pharmacy"],
          visible := fun l => false, clickOk := fun l => true,
          dropdownSelectOk := fun l => true } ∧
    selectLocation
        { probe := none, dropdownTexts := none, buttonTexts := some ["Pharmacy"],
          visible := fun l => false, clickOk := fun l => true,
          dropdownSelectOk := fun l => true } "Registration Desk" = SelectOutcome.Exn :=
  claim_C8_probe_failure_paths
    { probe := none, dropdownTexts := none, buttonTexts := some ["Pharmacy"],
      visible := fun l => false, clickOk := fun l => true,
      dropdownSelectOk := fun l => true } "Registration Desk" rfl

/-- C9 counterexample: when the button elements resolve but all their
texts are blank, dynamic enumeration yields zero entries yet the empty
list is returned — the hardcoded recovery list is not used. -/
theorem claim_C9_counterexample :
    getLocationOptionsFromButtons
        { probe := some false, dropdownTexts := none, buttonTexts := some ["", "  "],
          visible := fun l => true, clickOk := fun l => true,
          dropdownSelectOk := fun l => true } = [] := by
  decide

/-- C9 (amended).  The hardcoded recovery list is used exactly when the
bounded wait for the button elements itself fails (throws): then the
enumeration returns the fixed reference list (Inpatient Ward, Outpatient
Clinic, Laboratory, Pharmacy, Registration Desk, Isolation Ward — the same
list as the fixture `VALID_LOCATIONS`) filtered by visibility, or the
whole list when none is visible, and that result is always non-empty.
When the buttons resolve but every text is blank, the empty filtered list
is returned with no fallback. -/
theorem claim_C9_hardcoded_recovery (env : LocEnv) (h : env.buttonTexts = none) :
    getLocationOptionsFromButtons env =
      (if (commonLocations.filter env.visible).length > 0 then
        commonLocations.filter env.visible
      else commonLocations) ∧
    getLocationOptionsFromButtons env ≠ [] ∧
    commonLocations = VALID_LOCATIONS := by
  have heq : getLocationOptionsFromButtons env =
      (if (commonLocations.filter env.visible).length > 0 then
        commonLocations.filter env.visible
      else commonLocations) := by
    unfold getLocationOptionsFromButtons
    rw [h]
  refine ⟨heq, ?_, rfl⟩
  rw [heq]
  split
  · next hpos => exact List.length_pos.mp hpos
  · decide

/-- Witness for C9 (amended) at an environment whose button wait throws
and where only `Pharmacy` is visible among the hardcoded labels. -/
theorem claim_C9_hardcoded_recovery_witness :
    getLocationOptionsFromButtons
        { probe := some false, dropdownTexts := none, buttonTexts := none,
          visible := fun l => l == "Pharmacy", clickOk := fun l => true,
          dropdownSelectOk := fun l => true } =
      (if (commonLocations.filter (fun l => l == "Pharmacy")).length > 0 then
        commonLocations.filter (fun l => l == "Pharmacy")
      else commonLocations) ∧
    getLocationOptionsFromButtons
        { probe := some false, dropdownTexts := none, buttonTexts := none,
          visible := fun l => l == "Pharmacy", clickOk := fun l => true,
          dropdownSelectOk := fun l => true } ≠ [] ∧
    commonLocations = VALID_LOCATIONS :=
  claim_C9_hardcoded_recovery
    { probe := some false, dropdownTexts := none, buttonTexts := none,
      visible := fun l => l == "Pharmacy", clickOk := fun l => true,
      dropdownSelectOk := fun l => true } rfl

/-- Every patient produced by `extractPatients` comes from a row with at
least two cells, carries that row's trimmed second cell as its name, and
passed the non-empty / case-insensitive-containment filter. -/
theorem extractPatients_mem (query : String) (rows : List (List String)) (p : Patient)
    (hp : p ∈ extractPatients query rows) :
    ∃ cells ∈ rows, 2 ≤ cells.length ∧ p.name = jsTrim (cells.getD 1 "") ∧
      p.name ≠ "" ∧ rowMatchesQuery query p.name = true := by
  unfold extractPatients at hp
  obtain ⟨⟨i, cells⟩, hmem, hrow⟩ := List.mem_filterMap.mp hp
  have hcells : cells ∈ rows := by
    have h3 := List.mem_enum_iff_get?.mp hmem
    exact List.get?_mem h3
  dsimp only at hrow
  unfold extractRow at hrow
  rcases Nat.lt_or_ge cells.length 2 with hlt | hge
  · rw [if_neg (by omega)] at hrow
    exact absurd hrow (by simp)
  · rw [if_pos hge] at hrow
    simp only [] at hrow
    by_cases hcond :
        (jsTrim (cells.getD 1 "") != "" &&
          rowMatchesQuery query (jsTrim (cells.getD 1 ""))) = true
    · rw [if_pos hcond] at hrow
      have hpeq := Option.some.inj hrow
      have hand := Bool.and_eq_true_iff.mp hcond
      have hname : p.name = jsTrim (cells.getD 1 "") := by rw [← hpeq]
      refine ⟨cells, hcells, hge, hname, ?_, ?_⟩
      · rw [hname]; simpa using hand.1
      · rw [hname]; exact hand.2
    · rw [if_neg hcond] at hrow
      exact absurd hrow (by simp)

/-- C10 (confirmed).  Result-filter invariant of `searchPatient`: every
returned patient record comes from a live row (of the attempt whose
extraction was kept) with at least two cells, its name is that row's
trimmed second cell, non-empty and case-insensitively containing the
query; `hasResults` holds exactly when the returned list is non-empty and
`resultCount` is its length. -/
theorem claim_C10_result_filter_invariant (query : String) (baselineTexts : List String)
    (polls : List (List String)) (live : Nat → List (List String)) :
    ((searchPatient query baselineTexts polls live).hasResults = true ↔
      (searchPatient query baselineTexts polls live).patients ≠ []) ∧
    (searchPatient query baselineTexts polls live).resultCount =
      (searchPatient query baselineTexts polls live).patients.length ∧
    ∀ p ∈ (searchPatient query baselineTexts polls live).patients,
      p.name ≠ "" ∧ rowMatchesQuery query p.name = true ∧
      ∃ k, k < MAX_ATTEMPTS ∧ ∃ cells ∈ live k,
        2 ≤ cells.length ∧ p.name = jsTrim (cells.getD 1 "") := by
  refine ⟨?_, ?_, ?_⟩
  · simp [searchPatient, searchPatientRun, List.length_pos]
  · simp [searchPatient, searchPatientRun]
  · intro p hp
    have hp' : p ∈ (retryFrom query live 0 MAX_ATTEMPTS).1 := by
      simpa [searchPatient, searchPatientRun] using hp
    rcases retryFrom_patients_cases query live MAX_ATTEMPTS 0 with hnil | ⟨k, hk0, hk5, hkeq⟩
    · rw [hnil] at hp'
      simp at hp'
    · rw [hkeq] at hp'
      obtain ⟨cells, hc1, hc2, hc3, hc4, hc5⟩ := extractPatients_mem query (live k) p hp'
      exact ⟨hc4, hc5, k, by simpa using hk5, cells, hc1, hc2, hc3⟩

/-- Witness for C10 at a search that returns one record. -/
theorem claim_C10_result_filter_invariant_witness :
    "John Doe" ≠ "" ∧ rowMatchesQuery "john" "John Doe" = true ∧
    ∃ k, k < MAX_ATTEMPTS ∧ ∃ cells ∈ (fun v => [["100", "John Doe", "M", "30"]]) k,
      2 ≤ cells.length ∧ "John Doe" = jsTrim (cells.getD 1 "") := by
  have h := (claim_C10_result_filter_invariant "john" [] []
      (fun v => [["100", "John Doe", "M", "30"]])).2.2
        { index := 0, name := "John Doe", id := "100", gender := "M", age := "30" }
        (by decide)
  simpa using h

/-! ## Lemmas about the field-probe extractors -/

/-- When every fallback probe is absent or blank after trimming, the probe
loop yields the empty string. -/
theorem birthdateProbes_all_blank :
    ∀ probes, (∀ pr ∈ probes, jsTrim (pr.getD "") = "") → birthdateProbes probes = "" := by
  intro probes
  induction probes with
  | nil => intro _; rfl
  | cons pr rest ih =>
    intro h
    cases pr with
    | none => exact ih (fun q hq => h q (by simp [hq]))
    | some t =>
      have ht : jsTrim t = "" := by simpa using h (some t) (by simp)
      simp only [birthdateProbes]
      rw [if_pos ht]
      exact ih (fun q hq => h q (by simp [hq]))

/-- C7 (confirmed).  When every candidate probe of a field extraction
fails — the locator resolves to nothing, the text is blank after trimming,
or the attached pattern does not match — the extractor returns the empty
string as a normal value (the model is a total function, so no exception
is possible).  Stated for `getPatientBirthdate` (age-pattern probe plus
fallback selectors) and `getPatientId` (missing section, and section text
the pattern does not match). -/
theorem claim_C7_all_probes_fail_empty :
    (∀ ageRaw probes, birthdateFromAge (getPatientAge ageRaw) = none →
      (∀ pr ∈ probes, jsTrim (pr.getD "") = "") →
      getPatientBirthdate ageRaw probes = "") ∧
    getPatientId none = "" ∧
    (∀ t, patientIdSearch t.toList = none → getPatientId (some t) = "") := by
  refine ⟨?_, rfl, ?_⟩
  · intro ageRaw probes hage hprobes
    unfold getPatientBirthdate
    rw [hage]
    exact birthdateProbes_all_blank probes hprobes
  · intro t hsearch
    unfold getPatientId
    simp only []
    rw [hsearch]

/-- Witness for C7: an absent age element with absent/blank fallback
probes yields an empty birthdate; a section text without the id pattern
yields an empty patient id. -/
theorem claim_C7_all_probes_fail_empty_witness :
    getPatientBirthdate none [none, some "", some "   "] = "" ∧
    getPatientId (some "no identifier in sight") = "" :=
  ⟨claim_C7_all_probes_fail_empty.1 none [none, some "", some "   "] rfl (by decide),
   claim_C7_all_probes_fail_empty.2.2 "no identifier in sight" (by decide)⟩

/-- The birthdate pattern starts with a literal parenthesis, so a text
with no parenthesis at all cannot match it. -/
theorem findBirthdate_no_paren : ∀ cs : List Char, '(' ∉ cs → findBirthdate cs = none := by
  intro cs
  induction cs with
  | nil => intro _; rfl
  | cons c rest ih =>
    intro h
    have hc : c ≠ '(' := fun he => h (by simp [he])
    have hrest : '(' ∉ rest := fun hm => h (by simp [hm])
    conv_lhs => rw [findBirthdate.eq_def]
    split
    · next heq => exact absurd heq (by simp)
    · next heq =>
      rw [List.cons.injEq] at heq
      exact absurd heq.1 hc
    · next c' rest' hne heq =>
      rw [List.cons.injEq] at heq
      rw [← heq.2]
      exact ih hrest

/-- C6 counterexample: the age side of the split applied to
`"49 year(s) ( 22.Mar.1976)"` keeps the whole (whitespace-normalised)
text; it does not reduce it to `"49 year(s)"`. -/
theorem claim_C6_counterexample :
    getPatientAge (some "49 year(s) ( 22.Mar.1976)") ≠ "49 year(s)" := by
  decide

/-- C6 (amended).  Applied to `"49 year(s) ( 22.Mar.1976)"`, the split
yields the full normalised text `"49 year(s) ( 22.Mar.1976)"` as the age
(not just `"49 year(s)"`) and `"22.Mar.1976"` as the birthdate; applied to
any text without a parenthesis, the split pattern yields no structured
birthdate. -/
theorem claim_C6_age_birthdate_split :
    getPatientAge (some "49 year(s) ( 22.Mar.1976)") = "49 year(s) ( 22.Mar.1976)" ∧
    birthdateFromAge "49 year(s) ( 22.Mar.1976)" = some "22.Mar.1976" ∧
    ∀ s : String, '(' ∉ s.toList → birthdateFromAge s = none := by
  refine ⟨by decide, by decide, ?_⟩
  intro s hs
  unfold birthdateFromAge
  by_cases h0 : s = ""
  · rw [if_pos h0]
  · rw [if_neg h0, findBirthdate_no_paren s.toList hs]

/-- Witness for C6 (amended) at a parenthesis-free age text. -/
theorem claim_C6_age_birthdate_split_witness :
    birthdateFromAge "49 years old" = none :=
  claim_C6_age_birthdate_split.2.2 "49 years old" (by decide)

/-! ## Lemmas about the welcome-message regex -/

theorem matchParenTail_cons_ne (acc : List Char) (c : Char) (rest : List Char)
    (hc : c ≠ ')') :
    matchParenTail acc (c :: rest) =
      if isDotChar c then matchParenTail (c :: acc) rest else none := by
  conv_lhs => rw [matchParenTail.eq_def]
  split
  · next heq => rw [List.cons.injEq] at heq; exact absurd heq.1 hc
  · next heq => rw [List.cons.injEq] at heq; rw [heq.1, heq.2]
  · next heq => exact absurd heq (by simp)

theorem matchParenTail_close (acc w g2 : List Char) (hw : matchTailAll w = some g2) :
    matchParenTail acc (')' :: ' ' :: 'a' :: 't' :: ' ' :: w) = some (acc.reverse, g2) := by
  conv_lhs => rw [matchParenTail.eq_def]
  simp [hw]

theorem matchParenTail_role (role : List Char) :
    ∀ acc w g2, (∀ c ∈ role, isDotChar c = true ∧ c ≠ ')') →
      matchTailAll w = some g2 →
      matchParenTail acc (role ++ ')' :: ' ' :: 'a' :: 't' :: ' ' :: w) =
        some (acc.reverse ++ role, g2) := by
  induction role with
  | nil => intro acc w g2 _ hw; simpa using matchParenTail_close acc w g2 hw
  | cons c role' ih =>
    intro acc w g2 h hw
    have hc := h c (by simp)
    rw [List.cons_append, matchParenTail_cons_ne acc c _ hc.2, if_pos hc.1]
    rw [ih (c :: acc) w g2 (fun d hd => h d (by simp [hd])) hw]
    simp

theorem lazyToParen_cons_ne (c : Char) (rest : List Char) (hc : c ≠ '(') :
    lazyToParen (c :: rest) = if isDotChar c then lazyToParen rest else none := by
  conv_lhs => rw [lazyToParen.eq_def]
  split
  · next heq => rw [List.cons.injEq] at heq; exact absurd heq.1 hc
  · next heq => rw [List.cons.injEq] at heq; rw [heq.1, heq.2]
  · next heq => exact absurd heq (by simp)

theorem lazyToParen_open (v : List Char) (r : List Char × List Char)
    (hv : matchParenTail [] v = some r) : lazyToParen ('(' :: v) = some r := by
  conv_lhs => rw [lazyToParen.eq_def]
  simp [hv]

theorem lazyToParen_skip (u : List Char) :
    ∀ v r, (∀ c ∈ u, isDotChar c = true ∧ c ≠ '(') →
      matchParenTail [] v = some r →
      lazyToParen (u ++ '(' :: v) = some r := by
  induction u with
  | nil => intro v r _ hv; simpa using lazyToParen_open v r hv
  | cons c u' ih =>
    intro v r h hv
    have hc := h c (by simp)
    rw [List.cons_append, lazyToParen_cons_ne c _ hc.2, if_pos hc.1]
    exact ih v r (fun d hd => h d (by simp [hd])) hv

theorem welcomeScan_hit (rest : List Char) (r : List Char × List Char)
    (h : lazyToParen rest = some r) :
    welcomeScan (loggedInAsLit ++ rest) = some r := by
  have h13 : loggedInAsLit.length = 13 := rfl
  conv_lhs => rw [welcomeScan.eq_def]
  split
  · next heq => exact absurd heq (by simp [loggedInAsLit])
  · next c rest0 heq =>
    rw [← heq, List.take_left' h13, if_pos rfl, List.drop_left' h13, h]

/-- `jsTrim` leaves a string untouched when neither end starts with
whitespace. -/
theorem jsTrim_eq_self_of (s : String)
    (h1 : s.toList.dropWhile isJsWs = s.toList)
    (h2 : s.toList.reverse.dropWhile isJsWs = s.toList.reverse) : jsTrim s = s := by
  unfold jsTrim
  rw [h1, h2, List.reverse_reverse]
  rfl

/-- A list whose `dropWhile` is itself keeps that property under appending,
provided the appended part also has it when the list is empty. -/
theorem dropWhile_append_self (p : Char → Bool) (l r : List Char)
    (hl : l.dropWhile p = l) (hr : r.dropWhile p = r) :
    (l ++ r).dropWhile p = l ++ r := by
  cases l with
  | nil => simpa using hr
  | cons a l' =>
    have ha : ¬ p a = true := by
      have h0 := List.dropWhile_eq_self_iff.mp hl (by simp)
      simpa using h0
    rw [List.cons_append, List.dropWhile_cons, if_neg ha]

/-- Character-level decomposition of a welcome text built from a user
part, a parenthesised part and a location part. -/
theorem toList_welcome (u role loc : String) :
    ("Logged in as " ++ u ++ " (" ++ role ++ ") at " ++ loc ++ ".").toList =
      loggedInAsLit ++ ((u.toList ++ [' ']) ++
        '(' :: (role.toList ++ ')' :: ' ' :: 'a' :: 't' :: ' ' :: (loc.toList ++ ['.']))) := by
  have h1 : ∀ a b : String, (a ++ b).toList = a.toList ++ b.toList := by
    intro a b; simp [String.toList]
  simp only [h1]
  rw [show (" (" : String).toList = [' ', '('] from rfl,
      show (") at " : String).toList = [')', ' ', 'a', 't', ' '] from rfl,
      show ("." : String).toList = ['.'] from rfl,
      show ("Logged in as " : String).toList = loggedInAsLit from rfl]
  simp [List.append_assoc]

/-- C5 counterexample: on `"Logged in as Alice (Admin) at Ward A."` the
code does not return `{userInfo := "Alice", ward := "Ward A"}` — the
`userInfo` field it returns is the parenthesised `"Admin"`. -/
theorem claim_C5_counterexample :
    getWelcomeMessageParts (some "Logged in as Alice (Admin) at Ward A.") ≠
      some { userInfo := "Alice", ward := "Ward A" } := by
  decide

/-- C5 (amended).  Applied to a text of the form
`"Logged in as U (Role) at L."` (with the parts free of regex-significant
characters: `U` without parentheses or line terminators, `Role` without a
closing parenthesis or line terminator, `L` without line terminators or
leading whitespace), `getWelcomeMessageParts` returns
`{userInfo := Role, ward := L}` — the parenthesised role, not `U`, becomes
`userInfo`; and for any text the anchor pattern does not match at all it
returns `none` rather than a partially populated object. -/
theorem claim_C5_welcome_decomposition (u role loc : String)
    (hu : ∀ c ∈ u.toList, isDotChar c = true ∧ c ≠ '(')
    (hrole : ∀ c ∈ role.toList, isDotChar c = true ∧ c ≠ ')')
    (hloc : ∀ c ∈ loc.toList, isDotChar c = true)
    (hlead : loc.toList.dropWhile isJsWs = loc.toList) :
    getWelcomeMessageParts
        (some ("Logged in as " ++ u ++ " (" ++ role ++ ") at " ++ loc ++ ".")) =
      some { userInfo := role, ward := loc } ∧
    (∀ t, welcomeScan (jsTrim t).toList = none → getWelcomeMessageParts (some t) = none) := by
  have hT := toList_welcome u role loc
  have hT2 : ("Logged in as " ++ u ++ " (" ++ role ++ ") at " ++ loc ++ ".").toList =
      (loggedInAsLit ++ (u.toList ++ [' ']) ++
        '(' :: (role.toList ++ ')' :: ' ' :: 'a' :: 't' :: ' ' :: loc.toList)) ++ ['.'] := by
    rw [hT]; simp [List.append_assoc]
  have hfrontT : ("Logged in as " ++ u ++ " (" ++ role ++ ") at " ++ loc ++ ".").toList.dropWhile
      isJsWs = ("Logged in as " ++ u ++ " (" ++ role ++ ") at " ++ loc ++ ".").toList := by
    rw [hT, show loggedInAsLit = 'L' :: "ogged in as ".toList from rfl, List.cons_append,
      List.dropWhile_cons, if_neg (by decide)]
  have hbackT : ("Logged in as " ++ u ++ " (" ++ role ++ ") at " ++ loc ++
      ".").toList.reverse.dropWhile isJsWs =
      ("Logged in as " ++ u ++ " (" ++ role ++ ") at " ++ loc ++ ".").toList.reverse := by
    rw [hT2, show ∀ l : List Char, (l ++ ['.']).reverse = '.' :: l.reverse from by simp,
      List.dropWhile_cons, if_neg (by decide)]
  have htrim : jsTrim ("Logged in as " ++ u ++ " (" ++ role ++ ") at " ++ loc ++ ".") =
      "Logged in as " ++ u ++ " (" ++ role ++ ") at " ++ loc ++ "." :=
    jsTrim_eq_self_of _ hfrontT hbackT
  have hne : "Logged in as " ++ u ++ " (" ++ role ++ ") at " ++ loc ++ "." ≠ "" := by
    intro h0
    have h1 := congrArg String.toList h0
    rw [hT, show loggedInAsLit = 'L' :: "ogged in as ".toList from rfl] at h1
    simp at h1
  have htail : matchTailAll (loc.toList ++ ['.']) = some (loc.toList ++ ['.']) := by
    unfold matchTailAll
    rw [if_pos]
    refine List.all_eq_true.mpr ?_
    intro c hc
    rcases List.mem_append.mp hc with h | h
    · exact hloc c h
    · simp at h; subst h; decide
  have hparen : matchParenTail []
      (role.toList ++ ')' :: ' ' :: 'a' :: 't' :: ' ' :: (loc.toList ++ ['.'])) =
      some (role.toList, loc.toList ++ ['.']) := by
    have h := matchParenTail_role role.toList [] (loc.toList ++ ['.'])
      (loc.toList ++ ['.']) hrole htail
    simpa using h
  have hcond : ∀ c ∈ u.toList ++ [' '], isDotChar c = true ∧ c ≠ '(' := by
    intro c hc
    rcases List.mem_append.mp hc with h | h
    · exact hu c h
    · simp at h; subst h; exact ⟨by decide, by decide⟩
  have hscan : welcomeScan
      ("Logged in as " ++ u ++ " (" ++ role ++ ") at " ++ loc ++ ".").toList =
      some (role.toList, loc.toList ++ ['.']) := by
    rw [hT]
    exact welcomeScan_hit _ _ (lazyToParen_skip (u.toList ++ [' ']) _ _ hcond hparen)
  have hfrontW : ((loc.toList ++ ['.']).dropWhile isJsWs) = loc.toList ++ ['.'] :=
    dropWhile_append_self isJsWs loc.toList ['.'] hlead (by decide)
  have hbackW : ((loc.toList ++ ['.']).reverse.dropWhile isJsWs) =
      (loc.toList ++ ['.']).reverse := by
    rw [show (loc.toList ++ ['.']).reverse = '.' :: loc.toList.reverse from by simp,
      List.dropWhile_cons, if_neg (by decide)]
  have htrimW : jsTrim (String.mk (loc.toList ++ ['.'])) = String.mk (loc.toList ++ ['.']) :=
    jsTrim_eq_self_of _ hfrontW hbackW
  have hward : stripTrailingDot (jsTrim (String.mk (loc.toList ++ ['.']))) = loc := by
    rw [htrimW]
    unfold stripTrailingDot
    rw [show (String.mk (loc.toList ++ ['.'])).toList = loc.toList ++ ['.'] from rfl,
      List.getLast?_concat, if_pos rfl, List.dropLast_concat]
    rfl
  constructor
  · simp only [getWelcomeMessageParts]
    rw [htrim, if_neg hne, hscan]
    dsimp only
    rw [hward]
    rfl
  · intro t hsc
    simp only [getWelcomeMessageParts]
    by_cases h0 : jsTrim t = ""
    · rw [if_pos h0]
    · rw [if_neg h0, hsc]

/-- Witness for C5 (amended) at `U = "Alice"`, `Role = "Admin"`,
`L = "Ward A"`. -/
theorem claim_C5_welcome_decomposition_witness :
    getWelcomeMessageParts
        (some ("Logged in as " ++ "Alice" ++ " (" ++ "Admin" ++ ") at " ++ "Ward A" ++ ".")) =
      some { userInfo := "Admin", ward := "Ward A" } ∧
    (∀ t, welcomeScan (jsTrim t).toList = none → getWelcomeMessageParts (some t) = none) :=
  claim_C5_welcome_decomposition "Alice" "Admin" "Ward A"
    (by decide) (by decide) (by decide) (by decide)

end OpenRMS
